import Mathlib

/-!
Verification development for the stats module of the fishnet fork
(src/stats.rs): in-memory counters, snapshot persistence to a stats file,
an append-only SQLite event log, and an exponentially smoothed
nodes-per-second estimator.

Modelling conventions:
- u64 / u32 values are `Nat`; Rust release-mode wrapping arithmetic is made
  explicit with `% 2 ^ 64`; the `as i64` cast is `i64ofU64` below.
- f64 arithmetic in the estimator is modelled by exact rational arithmetic
  (the source's constants 0.9, 0.1, 0.4, 0.7 become the corresponding
  rationals); the `as u32` float-to-int cast is a saturating truncation.
- File and database I/O is modelled by explicit state (file content as a
  `List Char`, the SQLite table as a `List DbRow`) plus oracles for the
  outcomes of fallible operations (open, read, write, clock).
- A Rust panic is `Except.error`; a caught `Result`/`io::Result` error is
  modelled by the corresponding branch that logs and continues.
-/

namespace Fishnet

/-- The u64 modulus: counter arithmetic in the source is on u64. -/
def U64LIM : Nat := 2 ^ 64

/-- In-memory cumulative counters (struct `Stats`, all fields u64). -/
structure Stats where
  total_batches : Nat
  total_positions : Nat
  total_nodes : Nat
deriving DecidableEq

/-- Models the derived `Default` instance of `Stats`: all counters zero. -/
def Stats.zero : Stats := ⟨0, 0, 0⟩

/-! Decimal rendering of a counter, most significant digit first, as
serde_json renders a u64.  Written with explicit fuel so it reduces in the
kernel. -/

def natToCharsAux : Nat → Nat → List Char → List Char
  | 0, _, acc => acc
  | fuel + 1, n, acc =>
    if n = 0 then acc else natToCharsAux fuel (n / 10) (Nat.digitChar (n % 10) :: acc)

/-- Decimal digit string of a natural number. -/
def natToChars (n : Nat) : List Char :=
  if n = 0 then ['0'] else natToCharsAux n n []

/-- Double-quote character. -/
def dq : Char := Char.ofNat 34

/-- Opening brace character. -/
def obr : Char := Char.ofNat 123

/-- Closing brace character. -/
def cbr : Char := Char.ofNat 125

def keyTotalBatches : List Char := "total_batches".toList

def keyTotalPositions : List Char := "total_positions".toList

def keyTotalNodes : List Char := "total_nodes".toList

/-- One `"key": value` fragment of the pretty-printed snapshot. -/
def fieldChars (key : List Char) (n : Nat) : List Char :=
  dq :: key ++ dq :: ':' :: ' ' :: natToChars n

/-- Models `serde_json::to_string_pretty` applied to `Stats`: the exact
pretty-printed JSON object with two-space indentation that serde_json
emits for this struct. -/
def serdeStats (s : Stats) : List Char :=
  obr :: '\n' :: ' ' :: ' ' ::
    (fieldChars keyTotalBatches s.total_batches ++ ',' :: '\n' :: ' ' :: ' ' ::
      (fieldChars keyTotalPositions s.total_positions ++ ',' :: '\n' :: ' ' :: ' ' ::
        (fieldChars keyTotalNodes s.total_nodes ++ '\n' :: cbr :: [])))

/-! A parser modelling `serde_json::from_slice::<Stats>` on the relevant
inputs: it accepts the JSON object with the three u64 fields in the order
serde_json serializes them, with arbitrary interleaved JSON whitespace,
rejects anything else, and enforces the u64 range on each number. -/

/-- JSON whitespace, as serde_json skips it. -/
def isWsChar (c : Char) : Bool :=
  c == ' ' || c == '\n' || c == '\t' || c == '\r'

/-- Skip leading JSON whitespace. -/
def skipWs (s : List Char) : List Char := s.dropWhile isWsChar

/-- ASCII decimal digit test. -/
def isDigitCh (c : Char) : Bool := decide (48 ≤ c.toNat ∧ c.toNat ≤ 57)

/-- Numeric value of an ASCII digit character. -/
def charVal (c : Char) : Nat := c.toNat - 48

/-- Consume an expected literal token. -/
def expectTok (tok s : List Char) : Option (List Char) :=
  if s.take tok.length = tok then some (s.drop tok.length) else none

/-- Consume a non-empty run of decimal digits and return its value. -/
def parseNatCore (s : List Char) : Option (Nat × List Char) :=
  if (s.takeWhile isDigitCh).isEmpty then none
  else
    some (Nat.ofDigits 10 ((s.takeWhile isDigitCh).map charVal).reverse,
      s.dropWhile isDigitCh)

/-- Consume one `"key": value` field, enforcing the u64 range on the value
as serde does when deserializing into a u64 field. -/
def parseField (key : List Char) (s : List Char) : Option (Nat × List Char) :=
  (expectTok (dq :: key ++ [dq]) (skipWs s)).bind fun s1 =>
  (expectTok [':'] (skipWs s1)).bind fun s2 =>
  (parseNatCore (skipWs s2)).bind fun p =>
  if p.1 < U64LIM then some p else none

/-- Models `serde_json::from_slice::<Stats>`: parse the whole input as the
snapshot object, or fail. -/
def serdeStatsParse (s : List Char) : Option Stats :=
  (expectTok [obr] (skipWs s)).bind fun s1 =>
  (parseField keyTotalBatches s1).bind fun p1 =>
  (expectTok [','] (skipWs p1.2)).bind fun s3 =>
  (parseField keyTotalPositions s3).bind fun p2 =>
  (expectTok [','] (skipWs p2.2)).bind fun s5 =>
  (parseField keyTotalNodes s5).bind fun p3 =>
  (expectTok [cbr] (skipWs p3.2)).bind fun s7 =>
  if (skipWs s7).isEmpty then some ⟨p1.1, p2.1, p3.1⟩ else none

/-- Models `Stats::save_to`: `set_len(0)`, `rewind` and `write_all` replace
the file content with the pretty-printed snapshot.  The
`expect("serialize stats")` in the source cannot fire because serializing
this struct is total.  Returns the content the file holds after a
successful write. -/
def Stats.save_to (s : Stats) : List Char := serdeStats s

/-- Models `Stats::load_from`: rewind and read the whole file (`readOk`
models the fallible rewind/read, an `io::Result`), then: empty file means
no prior data, otherwise parse, turning a parse failure into an
`InvalidData` error. -/
def Stats.load_from (readOk : Bool) (content : List Char) :
    Except String (Option Stats) :=
  if readOk then
    if content.isEmpty then .ok none
    else
      match serdeStatsParse content with
      | some s => .ok (some s)
      | none => .error "invalid data"
  else .error "io error"

/-! The nodes-per-second estimator (`NpsRecorder`).  The source stores
`nps : u32` and `uncertainty : f64`; f64 arithmetic is modelled by exact
rational arithmetic. -/

/-- Throughput estimator state: `nps` is the u32 estimate, `uncertainty`
the f64 confidence band. -/
structure NpsRecorder where
  nps : Nat
  uncertainty : ℚ
deriving DecidableEq

/-- Models Rust's saturating, truncating `as u32` cast from a float. -/
def f64AsU32 (x : ℚ) : Nat := min (max ⌊x⌋ 0).toNat (2 ^ 32 - 1)

/-- Models `NpsRecorder::new`: optimistic prior estimate, maximal
uncertainty. -/
def NpsRecorder.new : NpsRecorder := ⟨400000, 1⟩

/-- Models `NpsRecorder::record`: with `alpha = 0.9`, decay the uncertainty
by `alpha` and blend the new sample into the estimate, casting back
to u32. -/
def NpsRecorder.record (r : NpsRecorder) (nps : Nat) : NpsRecorder :=
  { uncertainty := r.uncertainty * (9 / 10 : ℚ),
    nps := f64AsU32 ((r.nps : ℚ) * (9 / 10 : ℚ) + (nps : ℚ) * (1 - 9 / 10 : ℚ)) }

/-- Fold a list of throughput samples through `NpsRecorder.record`. -/
def runRecords (r : NpsRecorder) (samples : List Nat) : NpsRecorder :=
  samples.foldl NpsRecorder.record r

/-- The suffix of marker characters the `Display` impl appends for `k`
exceeded uncertainty thresholds: a space then `k` question marks. -/
def markerString : Nat → String
  | 0 => ""
  | k + 1 => " " ++ String.mk (List.replicate (k + 1) '?')

/-- The number of the three uncertainty thresholds 0.1, 0.4, 0.7 that the
current uncertainty exceeds. -/
def uncertaintyMarks (r : NpsRecorder) : Nat :=
  (([1 / 10, 4 / 10, 7 / 10] : List ℚ).filter
    (fun t => decide (t < r.uncertainty))).length

/-- Models the `fmt::Display` impl for `NpsRecorder`: the estimate in
knps, then one marker write per threshold the uncertainty exceeds. -/
def npsDisplay (r : NpsRecorder) : String :=
  (toString (r.nps / 1000) ++ " knps/core")
    ++ (if (1 / 10 : ℚ) < r.uncertainty then " ?" else "")
    ++ (if (4 / 10 : ℚ) < r.uncertainty then "?" else "")
    ++ (if (7 / 10 : ℚ) < r.uncertainty then "?" else "")

/-! The SQLite event log.  A connection is modelled by the list of rows
this core has appended to the `stats` table; the fallible `execute` calls
are driven by oracles. -/

/-- One row of the `stats` table (all SQLite INTEGER columns, i.e. i64;
the auto-increment id is left to the database). -/
structure DbRow where
  timestamp : Int
  total_batches : Int
  total_positions : Int
  total_nodes : Int
  nnue_nps : Int
deriving DecidableEq

/-- Models Rust's `as i64` cast from u64: reinterpret the low 64 bits as a
twos-complement signed value. -/
def i64ofU64 (n : Nat) : Int :=
  if n % U64LIM < 2 ^ 63 then ((n % U64LIM : Nat) : Int)
  else ((n % U64LIM : Nat) : Int) - (U64LIM : Int)

/-- The row `save_to_database` inserts: timestamp and the three counters
cast `as i64`, and the optional throughput sample (`unwrap_or_default`,
so 0 when absent) zero-extended from u32. -/
def dbRowOf (stats : Stats) (nnue_nps : Option Nat) (now : Nat) : DbRow :=
  { timestamp := i64ofU64 now,
    total_batches := i64ofU64 stats.total_batches,
    total_positions := i64ofU64 stats.total_positions,
    total_nodes := i64ofU64 stats.total_nodes,
    nnue_nps := ((nnue_nps.getD 0 : Nat) : Int) }

/-! The stats recorder. -/

/-- Recorder state (`StatsRecorder`).  `store` is the optional primary
stats file (path and current content), `db_conn` the optional SQLite
connection (rows appended so far), `cores` the retained `NonZeroUsize`
core count (unused by this core). -/
structure StatsRecorder where
  stats : Stats
  nnue_nps : NpsRecorder
  store : Option (String × List Char)
  cores : Nat
  db_conn : Option (List DbRow)
deriving DecidableEq

/-- Oracles for the fallible effects inside one `record_batch` call:
the wall clock (`none` models `SystemTime::now()` before `UNIX_EPOCH`,
where `duration_since` errs and the `expect` panics), the stats-file
write, and the SQLite insert. -/
structure IoEnv where
  clockNow : Option Nat
  fileWriteOk : Bool
  dbWriteOk : Bool
deriving DecidableEq

/-- The in-memory counter update of `record_batch`: three wrapping u64
additions. -/
def statsBump (s : Stats) (positions nodes : Nat) : Stats :=
  { total_batches := (s.total_batches + 1) % U64LIM,
    total_positions := (s.total_positions + positions) % U64LIM,
    total_nodes := (s.total_nodes + nodes) % U64LIM }

/-- Models `StatsRecorder::save_to_database`.  The outer `Except` is a
panic (the `expect` on the clock); the inner `Except` is the `rusqlite`
`Result` the caller catches.  On success the row list gains one row. -/
def save_to_database (stats : Stats) (rows : List DbRow) (nnue_nps : Option Nat)
    (env : IoEnv) : Except String (Except String (List DbRow)) :=
  match env.clockNow with
  | none => .error "Time went backwards"
  | some now =>
    if env.dbWriteOk then .ok (.ok (rows ++ [dbRowOf stats nnue_nps now]))
    else .ok (.error "sqlite error")

/-- Models `StatsRecorder::record_batch`: bump the counters, feed the
optional sample to the estimator, overwrite the stats file if present
(logging a failed write), append to the SQLite log if present (logging a
failed insert).  `Except.error` is a panic reaching the caller. -/
def StatsRecorder.record_batch (r : StatsRecorder) (positions nodes : Nat)
    (nnue_nps : Option Nat) (env : IoEnv) : Except String StatsRecorder :=
  let stats1 := statsBump r.stats positions nodes
  let nnue1 := match nnue_nps with
    | some sample => r.nnue_nps.record sample
    | none => r.nnue_nps
  let store1 := match r.store with
    | some (path, content) =>
      if env.fileWriteOk then some (path, Stats.save_to stats1)
      else some (path, content)
    | none => none
  match r.db_conn with
  | some rows =>
    match save_to_database stats1 rows nnue_nps env with
    | .error msg => .error msg
    | .ok (.ok rows1) =>
      .ok { stats := stats1, nnue_nps := nnue1, store := store1,
            cores := r.cores, db_conn := some rows1 }
    | .ok (.error _) =>
      .ok { stats := stats1, nnue_nps := nnue1, store := store1,
            cores := r.cores, db_conn := some rows }
  | none =>
    .ok { stats := stats1, nnue_nps := nnue1, store := store1,
          cores := r.cores, db_conn := none }

/-- One batch report: the deltas, the optional throughput sample, and the
effect oracles for that call. -/
structure BatchCall where
  positions : Nat
  nodes : Nat
  nnue_nps : Option Nat
  env : IoEnv
deriving DecidableEq

/-- Run a sequence of `record_batch` calls; a panic aborts the run. -/
def runBatches (r : StatsRecorder) (calls : List BatchCall) :
    Except String StatsRecorder :=
  match calls with
  | [] => .ok r
  | c :: rest =>
    match r.record_batch c.positions c.nodes c.nnue_nps c.env with
    | .error msg => .error msg
    | .ok r1 => runBatches r1 rest

/-! Construction (`StatsRecorder::new`). -/

/-- The slice of `StatsOpt` this core consumes. -/
structure StatsOpt where
  no_stats_file : Bool
  stats_file : Option String
deriving DecidableEq

/-- Oracles for construction: the home directory (for the default stats
path), the outcome of opening the stats file (content on success), the
outcome of the initial read, and SQLite initialization. -/
structure NewEnv where
  home_dir : Option String
  openResult : Except String (List Char)
  readOk : Bool
  dbInit : Bool

/-- Models `default_stats_file`: `~/.fishnet-stats` when a home directory
resolves. -/
def default_stats_file (env : NewEnv) : Option String :=
  env.home_dir.map (fun d => d ++ "/.fishnet-stats")

/-- Path resolution in `StatsRecorder::new`:
`opt.stats_file.or_else(default_stats_file)`. -/
def resolvePath (opt : StatsOpt) (env : NewEnv) : Option String :=
  match opt.stats_file with
  | some p => some p
  | none => default_stats_file env

/-- Models `StatsRecorder::new`.  With `no_stats_file` set, return a fresh
in-memory recorder before any I/O (in particular before SQLite
initialization).  Otherwise resolve the path, open-or-create it (on
failure: no store), load the prior snapshot (errors reset to zero but keep
the open handle), and independently initialize the SQLite log. -/
def StatsRecorder.new (opt : StatsOpt) (cores : Nat) (env : NewEnv) :
    StatsRecorder :=
  if opt.no_stats_file then
    { stats := Stats.zero, nnue_nps := NpsRecorder.new, store := none,
      cores := cores, db_conn := none }
  else
    let path := resolvePath opt env
    let loaded : Stats × Option (String × List Char) :=
      match path with
      | some p =>
        match env.openResult with
        | .ok content =>
          (match Stats.load_from env.readOk content with
            | .ok (some stats) => stats
            | .ok none => Stats.zero
            | .error _ => Stats.zero,
            some (p, content))
        | .error _ => (Stats.zero, none)
      | none => (Stats.zero, none)
    let db_conn : Option (List DbRow) := if env.dbInit then some [] else none
    { stats := loaded.1, nnue_nps := NpsRecorder.new, store := loaded.2,
      cores := cores, db_conn := db_conn }

/-! Decidable equality for `Except`, so concrete runs can be checked
by `decide`. -/

instance instDecidableEqExcept {ε α : Type} [DecidableEq ε] [DecidableEq α] :
    DecidableEq (Except ε α)
  | .error e, .error f =>
    if h : e = f then .isTrue (by rw [h])
    else .isFalse (fun hc => h (Except.error.inj hc))
  | .error _, .ok _ => .isFalse (fun hc => Except.noConfusion hc)
  | .ok _, .error _ => .isFalse (fun hc => Except.noConfusion hc)
  | .ok a, .ok b =>
    if h : a = b then .isTrue (by rw [h])
    else .isFalse (fun hc => h (Except.ok.inj hc))

/-! Helper lemmas about the decimal rendering. -/

lemma natToCharsAux_eq (fuel : Nat) :
    ∀ (n : Nat) (acc : List Char), n ≤ fuel →
      natToCharsAux fuel n acc =
        ((Nat.digits 10 n).reverse.map Nat.digitChar) ++ acc := by
  induction fuel with
  | zero =>
    intro n acc hn
    interval_cases n
    simp [natToCharsAux]
  | succ fuel ih =>
    intro n acc hn
    by_cases h0 : n = 0
    · subst h0
      simp [natToCharsAux]
    · have hdiv : n / 10 < n := Nat.div_lt_self (Nat.pos_of_ne_zero h0) (by norm_num)
      rw [natToCharsAux, if_neg h0, ih (n / 10) _ (by omega)]
      rw [Nat.digits_def' (by norm_num : 1 < 10) (Nat.pos_of_ne_zero h0)]
      simp [List.append_assoc]

lemma natToChars_eq_digits (n : Nat) (hn : n ≠ 0) :
    natToChars n = (Nat.digits 10 n).reverse.map Nat.digitChar := by
  rw [natToChars, if_neg hn, natToCharsAux_eq n n [] le_rfl, List.append_nil]

lemma digitChar_facts : ∀ d < 10,
    charVal (Nat.digitChar d) = d ∧ isDigitCh (Nat.digitChar d) = true ∧
      isWsChar (Nat.digitChar d) = false := by decide

lemma natToChars_ne_nil (n : Nat) : natToChars n ≠ [] := by
  by_cases h0 : n = 0
  · subst h0
    simp [natToChars]
  · rw [natToChars_eq_digits n h0]
    simp [Nat.digits_ne_nil_iff_ne_zero.mpr h0]

lemma natToChars_mem (n : Nat) :
    ∀ c ∈ natToChars n, isDigitCh c = true ∧ isWsChar c = false := by
  intro c hc
  by_cases h0 : n = 0
  · subst h0
    simp [natToChars] at hc
    subst hc
    exact ⟨by decide, by decide⟩
  · rw [natToChars_eq_digits n h0] at hc
    simp only [List.mem_map, List.mem_reverse] at hc
    obtain ⟨d, hd, rfl⟩ := hc
    have hlt := Nat.digits_lt_base (by norm_num) hd
    exact ⟨(digitChar_facts d hlt).2.1, (digitChar_facts d hlt).2.2⟩

lemma parseNat_value (n : Nat) :
    Nat.ofDigits 10 (((natToChars n).map charVal).reverse) = n := by
  by_cases h0 : n = 0
  · subst h0
    simp [natToChars]
    decide
  · rw [natToChars_eq_digits n h0, List.map_map]
    have hcongr :
        (Nat.digits 10 n).reverse.map (charVal ∘ Nat.digitChar)
          = (Nat.digits 10 n).reverse.map id := by
      apply List.map_congr_left
      intro d hd
      have hlt := Nat.digits_lt_base (by norm_num) (List.mem_reverse.mp hd)
      exact (digitChar_facts d hlt).1
    rw [hcongr, List.map_id, List.reverse_reverse, Nat.ofDigits_digits]

/-! Helper lemmas about the parsing primitives. -/

lemma takeWhile_append_all {p : Char → Bool} (l r : List Char)
    (h : ∀ c ∈ l, p c = true) :
    (l ++ r).takeWhile p = l ++ r.takeWhile p := by
  induction l with
  | nil => simp
  | cons c t ih =>
    simp only [List.cons_append, List.takeWhile_cons, h c (List.mem_cons_self c t),
      if_true]
    rw [ih (fun x hx => h x (List.mem_cons_of_mem c hx))]

lemma dropWhile_append_all {p : Char → Bool} (l r : List Char)
    (h : ∀ c ∈ l, p c = true) :
    (l ++ r).dropWhile p = r.dropWhile p := by
  induction l with
  | nil => simp
  | cons c t ih =>
    simp only [List.cons_append, List.dropWhile_cons, h c (List.mem_cons_self c t),
      if_true]
    exact ih (fun x hx => h x (List.mem_cons_of_mem c hx))

lemma skipWs_cons_ws (c : Char) (t : List Char) (h : isWsChar c = true) :
    skipWs (c :: t) = skipWs t := by
  simp [skipWs, List.dropWhile_cons, h]

lemma skipWs_cons_not (c : Char) (t : List Char) (h : isWsChar c = false) :
    skipWs (c :: t) = c :: t := by
  simp [skipWs, List.dropWhile_cons, h]

lemma skipWs_natToChars (n : Nat) (r : List Char) :
    skipWs (natToChars n ++ r) = natToChars n ++ r := by
  obtain ⟨c, t, hct⟩ : ∃ c t, natToChars n = c :: t := by
    cases h : natToChars n with
    | nil => exact absurd h (natToChars_ne_nil n)
    | cons c t => exact ⟨c, t, rfl⟩
  rw [hct, List.cons_append]
  exact skipWs_cons_not c _ ((natToChars_mem n c (by rw [hct]; exact List.mem_cons_self c t)).2)

lemma expectTok_append (tok rest : List Char) :
    expectTok tok (tok ++ rest) = some rest := by
  rw [expectTok, if_pos (List.take_left tok rest), List.drop_left]

lemma expectTok_cons (c : Char) (rest : List Char) :
    expectTok [c] (c :: rest) = some rest :=
  expectTok_append [c] rest

lemma expectTok_key (key rest : List Char) :
    expectTok (dq :: key ++ [dq]) (dq :: (key ++ dq :: rest)) = some rest := by
  have h : dq :: (key ++ dq :: rest) = (dq :: key ++ [dq]) ++ rest := by simp
  rw [h, expectTok_append]

lemma parseNatCore_exact (n : Nat) (c : Char) (t : List Char)
    (hc : isDigitCh c = false) :
    parseNatCore (natToChars n ++ c :: t) = some (n, c :: t) := by
  have hall : ∀ x ∈ natToChars n, isDigitCh x = true :=
    fun x hx => ((natToChars_mem n) x hx).1
  have htake : (natToChars n ++ c :: t).takeWhile isDigitCh = natToChars n := by
    rw [takeWhile_append_all _ _ hall, List.takeWhile_cons, hc]
    simp
  have hdrop : (natToChars n ++ c :: t).dropWhile isDigitCh = c :: t := by
    rw [dropWhile_append_all _ _ hall, List.dropWhile_cons, hc]
    simp
  rw [parseNatCore, htake, hdrop]
  rw [if_neg (by simp [natToChars_ne_nil n])]
  rw [parseNat_value]

lemma parseField_exact (key : List Char) (n : Nat) (c : Char) (t s : List Char)
    (hs : skipWs s = dq :: (key ++ dq :: ':' :: ' ' :: (natToChars n ++ c :: t)))
    (hc : isDigitCh c = false) (hn : n < U64LIM) :
    parseField key s = some (n, c :: t) := by
  rw [parseField, hs, expectTok_key]
  simp only [Option.some_bind]
  rw [skipWs_cons_not ':' _ (by decide), expectTok_cons]
  simp only [Option.some_bind]
  rw [skipWs_cons_ws ' ' _ (by decide), skipWs_natToChars, parseNatCore_exact n c t hc]
  simp only [Option.some_bind]
  rw [if_pos hn]

lemma skipWs_fieldhead (key : List Char) (n : Nat) (r : List Char) :
    skipWs ('\n' :: ' ' :: ' ' :: (fieldChars key n ++ r))
      = dq :: (key ++ dq :: ':' :: ' ' :: (natToChars n ++ r)) := by
  rw [skipWs_cons_ws '\n' _ (by decide), skipWs_cons_ws ' ' _ (by decide),
    skipWs_cons_ws ' ' _ (by decide)]
  have h : fieldChars key n ++ r
      = dq :: (key ++ dq :: ':' :: ' ' :: (natToChars n ++ r)) := by
    simp [fieldChars]
  rw [h, skipWs_cons_not dq _ (by decide)]

lemma serdeStatsParse_serdeStats (s : Stats)
    (h1 : s.total_batches < U64LIM) (h2 : s.total_positions < U64LIM)
    (h3 : s.total_nodes < U64LIM) :
    serdeStatsParse (serdeStats s) = some s := by
  obtain ⟨a, b, c⟩ := s
  rw [serdeStatsParse, serdeStats]
  rw [skipWs_cons_not obr _ (by decide), expectTok_cons]
  simp only [Option.some_bind]
  rw [parseField_exact keyTotalBatches a ',' _ _ (skipWs_fieldhead _ _ _) (by decide) h1]
  simp only [Option.some_bind]
  rw [skipWs_cons_not ',' _ (by decide), expectTok_cons]
  simp only [Option.some_bind]
  rw [parseField_exact keyTotalPositions b ',' _ _ (skipWs_fieldhead _ _ _) (by decide) h2]
  simp only [Option.some_bind]
  rw [skipWs_cons_not ',' _ (by decide), expectTok_cons]
  simp only [Option.some_bind]
  rw [parseField_exact keyTotalNodes c '\n' _ _ (skipWs_fieldhead _ _ _) (by decide) h3]
  simp only [Option.some_bind]
  rw [skipWs_cons_ws '\n' _ (by decide), skipWs_cons_not cbr _ (by decide), expectTok_cons]
  simp only [Option.some_bind]
  simp [skipWs]

/-- C3: saving a `Counters` snapshot with `Stats::save_to` and loading it
back with `Stats::load_from` restores exactly the three counter values.
Stated for any `Stats` whose fields are in u64 range (as they are in the
source, where the fields are u64). -/
theorem stats_save_load_roundtrip (s : Stats)
    (h1 : s.total_batches < U64LIM) (h2 : s.total_positions < U64LIM)
    (h3 : s.total_nodes < U64LIM) :
    Stats.load_from true (Stats.save_to s) = .ok (some s) := by
  rw [Stats.load_from, if_pos rfl, Stats.save_to]
  rw [if_neg ?hne]
  · rw [serdeStatsParse_serdeStats s h1 h2 h3]
  · simp [serdeStats]

/-- Witness for C3 at a concrete snapshot. -/
theorem stats_save_load_roundtrip_witness :
    Stats.load_from true (Stats.save_to ⟨5, 6, 7⟩) = .ok (some ⟨5, 6, 7⟩) :=
  stats_save_load_roundtrip ⟨5, 6, 7⟩ (by norm_num [U64LIM]) (by norm_num [U64LIM])
    (by norm_num [U64LIM])

/-! Behaviour of `record_batch`. -/

/-- When the wall-clock read succeeds, or no SQLite connection is present
so the clock is never read, `record_batch` returns normally and the
in-memory counters are bumped. -/
lemma record_batch_ok (r : StatsRecorder) (p n : Nat) (sm : Option Nat)
    (env : IoEnv) (h : env.clockNow.isSome = true ∨ r.db_conn = none) :
    ∃ r1, r.record_batch p n sm env = .ok r1 ∧
      r1.stats = statsBump r.stats p n := by
  simp only [StatsRecorder.record_batch, save_to_database]
  cases hdb : r.db_conn with
  | none => exact ⟨_, rfl, rfl⟩
  | some rows =>
    cases hclk : env.clockNow with
    | none =>
      rcases h with h | h
      · rw [hclk] at h
        simp at h
      · rw [h] at hdb
        cases hdb
    | some t =>
      cases hw : env.dbWriteOk with
      | true => exact ⟨_, rfl, rfl⟩
      | false => exact ⟨_, rfl, rfl⟩

/-- Counter arithmetic over a whole run of `record_batch` calls, starting
from counters in u64 range. -/
lemma runBatches_stats (calls : List BatchCall) :
    ∀ r : StatsRecorder,
      (∀ c ∈ calls, c.env.clockNow.isSome = true) →
      r.stats.total_batches < U64LIM → r.stats.total_positions < U64LIM →
      r.stats.total_nodes < U64LIM →
      ∃ r1, runBatches r calls = .ok r1 ∧
        r1.stats.total_batches = (r.stats.total_batches + calls.length) % U64LIM ∧
        r1.stats.total_positions
          = (r.stats.total_positions + (calls.map BatchCall.positions).sum) % U64LIM ∧
        r1.stats.total_nodes
          = (r.stats.total_nodes + (calls.map BatchCall.nodes).sum) % U64LIM := by
  induction calls with
  | nil =>
    intro r _ hb hp hn
    exact ⟨r, rfl, by simp [Nat.mod_eq_of_lt hb], by simp [Nat.mod_eq_of_lt hp],
      by simp [Nat.mod_eq_of_lt hn]⟩
  | cons c rest ih =>
    intro r hclk hb hp hn
    obtain ⟨r1, hr1, hs1⟩ := record_batch_ok r c.positions c.nodes c.nnue_nps c.env
      (Or.inl (hclk c (List.mem_cons_self c rest)))
    have hpos : 0 < U64LIM := by norm_num [U64LIM]
    obtain ⟨r2, hr2, hb2, hp2, hn2⟩ :=
      ih r1 (fun x hx => hclk x (List.mem_cons_of_mem c hx))
        (by rw [hs1]; exact Nat.mod_lt _ hpos)
        (by rw [hs1]; exact Nat.mod_lt _ hpos)
        (by rw [hs1]; exact Nat.mod_lt _ hpos)
    refine ⟨r2, ?_, ?_, ?_, ?_⟩
    · simp only [runBatches]
      rw [hr1]
      exact hr2
    · rw [hb2, hs1]
      simp only [statsBump, Nat.mod_add_mod, List.length_cons]
      congr 1
      omega
    · rw [hp2, hs1]
      simp only [statsBump, Nat.mod_add_mod, List.map_cons, List.sum_cons]
      congr 1
      omega
    · rw [hn2, hs1]
      simp only [statsBump, Nat.mod_add_mod, List.map_cons, List.sum_cons]
      congr 1
      omega

/-- C1 (amended): starting from zero counters, after a run of N
batch-report calls whose wall-clock reads succeed, the in-memory counters
are the wrap-around (mod 2^64) values of N and of the delta sums — equal
to N, Σp and Σn themselves whenever those are below 2^64 — regardless of
which persistence handles are present and whether their writes fail. -/
theorem record_batch_counter_sums (r0 : StatsRecorder) (calls : List BatchCall)
    (h0 : r0.stats = Stats.zero)
    (hclk : ∀ c ∈ calls, c.env.clockNow.isSome = true) :
    ∃ r1, runBatches r0 calls = .ok r1 ∧
      r1.stats.total_batches = calls.length % U64LIM ∧
      r1.stats.total_positions = (calls.map BatchCall.positions).sum % U64LIM ∧
      r1.stats.total_nodes = (calls.map BatchCall.nodes).sum % U64LIM := by
  obtain ⟨r1, h, hb, hp, hn⟩ := runBatches_stats calls r0 hclk
    (by rw [h0]; norm_num [Stats.zero, U64LIM])
    (by rw [h0]; norm_num [Stats.zero, U64LIM])
    (by rw [h0]; norm_num [Stats.zero, U64LIM])
  rw [h0] at hb hp hn
  simp only [Stats.zero] at hb hp hn
  exact ⟨r1, h, by simpa using hb, by simpa using hp, by simpa using hn⟩

/-- Witness for C1 at a concrete run of two calls. -/
theorem record_batch_counter_sums_witness :
    ∃ r1, runBatches
        { stats := Stats.zero, nnue_nps := NpsRecorder.new, store := none,
          cores := 1, db_conn := none }
        [⟨3, 50, none, ⟨some 0, true, true⟩⟩, ⟨4, 60, none, ⟨some 1, true, false⟩⟩]
        = .ok r1 ∧
      r1.stats.total_batches = 2 % U64LIM ∧
      r1.stats.total_positions = 7 % U64LIM ∧
      r1.stats.total_nodes = 110 % U64LIM :=
  record_batch_counter_sums _ _ rfl (by decide)

/-- C1 counterexample: two calls each reporting 2^64 - 1 positions leave
total_positions at 2^64 - 2, not at the claimed arithmetic sum
(2^64 - 1) + (2^64 - 1): the u64 counter wraps. -/
theorem record_batch_counter_sums_cex :
    (match runBatches
        { stats := Stats.zero, nnue_nps := NpsRecorder.new, store := none,
          cores := 1, db_conn := none }
        [⟨U64LIM - 1, 0, none, ⟨some 0, true, true⟩⟩,
         ⟨U64LIM - 1, 0, none, ⟨some 0, true, true⟩⟩] with
      | .ok r1 => r1.stats.total_positions
      | .error _ => 0)
      = U64LIM - 2 ∧ U64LIM - 2 ≠ (U64LIM - 1) + (U64LIM - 1) := by
  exact ⟨rfl, by decide⟩

/-- C2 (amended): `record_batch` never raises to its caller provided the
wall-clock read succeeds or no Secondary Log connection is present; all
persistence failures are absorbed internally.  (A pre-epoch clock with a
connection present panics, see the counterexample.) -/
theorem record_batch_no_raise (r : StatsRecorder) (p n : Nat) (sm : Option Nat)
    (env : IoEnv) (h : env.clockNow.isSome = true ∨ r.db_conn = none) :
    ∃ r1, r.record_batch p n sm env = .ok r1 := by
  obtain ⟨r1, hr1, _⟩ := record_batch_ok r p n sm env h
  exact ⟨r1, hr1⟩

/-- Witness for C2 with both stores present and both writes failing. -/
theorem record_batch_no_raise_witness :
    ∃ r1, StatsRecorder.record_batch
      { stats := Stats.zero, nnue_nps := NpsRecorder.new,
        store := some ("/s", []), cores := 1, db_conn := some [] }
      3 5 none ⟨some 7, false, false⟩ = .ok r1 :=
  record_batch_no_raise _ 3 5 none _ (Or.inl rfl)

/-- C2 counterexample: with a Secondary Log connection present and the
wall clock before the Unix epoch, `record_batch` panics via the source's
`expect("Time went backwards")` instead of absorbing the clock failure. -/
theorem record_batch_clock_panic_cex :
    StatsRecorder.record_batch
      { stats := Stats.zero, nnue_nps := NpsRecorder.new, store := none,
        cores := 1, db_conn := some [] } 1 1 none ⟨none, true, true⟩
      = .error "Time went backwards" := rfl

/-- C9: the two persistence targets and the in-memory counters are
mutually isolated in `record_batch`: the counters are always bumped; with
no Secondary Log, a present Primary Store still receives the snapshot;
with no Primary Store, a present Secondary Log still gains exactly one
row; failures of either write never touch the in-memory update. -/
theorem record_batch_isolation (r : StatsRecorder) (p n : Nat) (sm : Option Nat)
    (env : IoEnv) (t : Nat) (hclk : env.clockNow = some t) :
    ∃ r1, r.record_batch p n sm env = .ok r1 ∧
      r1.stats = statsBump r.stats p n ∧
      (∀ path content, r.db_conn = none → r.store = some (path, content) →
        env.fileWriteOk = true →
        r1.store = some (path, Stats.save_to (statsBump r.stats p n))) ∧
      (∀ rows, r.store = none → r.db_conn = some rows → env.dbWriteOk = true →
        r1.db_conn = some (rows ++ [dbRowOf (statsBump r.stats p n) sm t])) := by
  simp only [StatsRecorder.record_batch, save_to_database, hclk]
  cases hdb : r.db_conn with
  | none =>
    refine ⟨_, rfl, rfl, ?_, ?_⟩
    · intro path content _ hpc hfw
      rw [hpc, hfw]
      simp
    · intro rows _ hdbc
      exact absurd hdbc (by simp)
  | some rows =>
    cases hw : env.dbWriteOk with
    | false =>
      refine ⟨_, rfl, rfl, ?_, ?_⟩
      · intro path content hdbc
        exact absurd hdbc (by simp)
      · intro rows2 _ hdbc hw2
        cases hw2
    | true =>
      refine ⟨_, rfl, rfl, ?_, ?_⟩
      · intro path content hdbc
        exact absurd hdbc (by simp)
      · intro rows2 _ hdbc _
        cases Option.some.inj hdbc
        rfl

/-- Witness for C9 with the Primary Store absent and the Secondary Log
present. -/
theorem record_batch_isolation_witness :
    ∃ r1, StatsRecorder.record_batch
      { stats := Stats.zero, nnue_nps := NpsRecorder.new, store := none,
        cores := 1, db_conn := some [] } 3 5 none ⟨some 9, true, true⟩ = .ok r1 ∧
      r1.stats = statsBump Stats.zero 3 5 ∧
      (∀ path content,
        (some ([] : List DbRow) : Option (List DbRow)) = none →
        (none : Option (String × List Char)) = some (path, content) →
        true = true →
        r1.store = some (path, Stats.save_to (statsBump Stats.zero 3 5))) ∧
      (∀ rows, (none : Option (String × List Char)) = none →
        (some ([] : List DbRow) : Option (List DbRow)) = some rows →
        true = true →
        r1.db_conn = some (rows ++ [dbRowOf (statsBump Stats.zero 3 5) none 9])) :=
  record_batch_isolation _ 3 5 none _ 9 rfl

/-! The signed casts on the Secondary Log write path. -/

lemma i64ofU64_low (n : Nat) (h : n < 2 ^ 63) : i64ofU64 n = (n : Int) := by
  have h2 : n < U64LIM := lt_trans h (by norm_num [U64LIM])
  rw [i64ofU64, Nat.mod_eq_of_lt h2, if_pos h]

lemma i64ofU64_high (n : Nat) (h1 : 2 ^ 63 ≤ n) (h2 : n < U64LIM) :
    i64ofU64 n = (n : Int) - 2 ^ 64 := by
  rw [i64ofU64, Nat.mod_eq_of_lt h2, if_neg (not_lt.mpr h1)]
  norm_num [U64LIM]

/-- C10: `save_to_database` casts the timestamp and the three u64 counters
`as i64` with no range check, so a counter at or above 2^63 lands in the
log as a negative number instead of its true value, and a missing
throughput sample is recorded as 0. -/
theorem save_to_database_signed_casts (s : Stats) (rows : List DbRow)
    (env : IoEnv) (t : Nat)
    (hclk : env.clockNow = some t) (hw : env.dbWriteOk = true)
    (hb : 2 ^ 63 ≤ s.total_batches) (hb2 : s.total_batches < U64LIM)
    (hp : 2 ^ 63 ≤ s.total_positions) (hp2 : s.total_positions < U64LIM)
    (hn : 2 ^ 63 ≤ s.total_nodes) (hn2 : s.total_nodes < U64LIM)
    (ht : t < 2 ^ 63) :
    save_to_database s rows none env = .ok (.ok (rows ++ [dbRowOf s none t])) ∧
      (dbRowOf s none t).total_batches < 0 ∧
      (dbRowOf s none t).total_batches ≠ (s.total_batches : Int) ∧
      (dbRowOf s none t).total_positions < 0 ∧
      (dbRowOf s none t).total_positions ≠ (s.total_positions : Int) ∧
      (dbRowOf s none t).total_nodes < 0 ∧
      (dbRowOf s none t).total_nodes ≠ (s.total_nodes : Int) ∧
      (dbRowOf s none t).timestamp = (t : Int) ∧
      (dbRowOf s none t).nnue_nps = 0 := by
  have hcast : ∀ m : Nat, 2 ^ 63 ≤ m → m < U64LIM →
      i64ofU64 m < 0 ∧ i64ofU64 m ≠ (m : Int) := by
    intro m h1 h2
    rw [i64ofU64_high m h1 h2]
    have : (m : Int) < 2 ^ 64 := by
      have := h2
      norm_num [U64LIM] at this
      exact_mod_cast this
    constructor
    · omega
    · omega
  refine ⟨?_, (hcast _ hb hb2).1, (hcast _ hb hb2).2, (hcast _ hp hp2).1,
    (hcast _ hp hp2).2, (hcast _ hn hn2).1, (hcast _ hn hn2).2, ?_, ?_⟩
  · rw [save_to_database, hclk]
    simp [hw]
  · exact i64ofU64_low t ht
  · simp [dbRowOf]

/-- Witness for C10 with all three counters exactly at 2^63. -/
theorem save_to_database_signed_casts_witness :
    save_to_database ⟨2 ^ 63, 2 ^ 63, 2 ^ 63⟩ [] none ⟨some 0, true, true⟩
        = .ok (.ok ([dbRowOf ⟨2 ^ 63, 2 ^ 63, 2 ^ 63⟩ none 0])) ∧
      (dbRowOf ⟨2 ^ 63, 2 ^ 63, 2 ^ 63⟩ none 0).total_batches < 0 ∧
      (dbRowOf ⟨2 ^ 63, 2 ^ 63, 2 ^ 63⟩ none 0).total_batches
        ≠ ((2 ^ 63 : Nat) : Int) ∧
      (dbRowOf ⟨2 ^ 63, 2 ^ 63, 2 ^ 63⟩ none 0).total_positions < 0 ∧
      (dbRowOf ⟨2 ^ 63, 2 ^ 63, 2 ^ 63⟩ none 0).total_positions
        ≠ ((2 ^ 63 : Nat) : Int) ∧
      (dbRowOf ⟨2 ^ 63, 2 ^ 63, 2 ^ 63⟩ none 0).total_nodes < 0 ∧
      (dbRowOf ⟨2 ^ 63, 2 ^ 63, 2 ^ 63⟩ none 0).total_nodes
        ≠ ((2 ^ 63 : Nat) : Int) ∧
      (dbRowOf ⟨2 ^ 63, 2 ^ 63, 2 ^ 63⟩ none 0).timestamp = ((0 : Nat) : Int) ∧
      (dbRowOf ⟨2 ^ 63, 2 ^ 63, 2 ^ 63⟩ none 0).nnue_nps = 0 := by
  have h1 : (2 ^ 63 : Nat) ≤ 2 ^ 63 := le_refl _
  have h2 : (2 ^ 63 : Nat) < U64LIM := by norm_num [U64LIM]
  have h3 : (0 : Nat) < 2 ^ 63 := by norm_num
  simpa using save_to_database_signed_casts ⟨2 ^ 63, 2 ^ 63, 2 ^ 63⟩ [] ⟨some 0, true, true⟩ 0
    rfl rfl h1 h2 h1 h2 h1 h2 h3

/-! Construction. -/

/-- C4: constructing a recorder with persistence enabled against an
openable Primary Store file holding a valid (readable, parseable)
snapshot restores exactly those counter values, before any batch is
reported, and retains the open handle. -/
theorem new_resumes_from_snapshot (opt : StatsOpt) (cores : Nat) (env : NewEnv)
    (p : String) (content : List Char) (st : Stats)
    (hno : opt.no_stats_file = false) (hp : opt.stats_file = some p)
    (hopen : env.openResult = .ok content) (hread : env.readOk = true)
    (hload : Stats.load_from true content = .ok (some st)) :
    (StatsRecorder.new opt cores env).stats = st ∧
    (StatsRecorder.new opt cores env).store = some (p, content) := by
  rw [StatsRecorder.new]
  rw [if_neg (by simp [hno])]
  simp only [resolvePath, hp, hopen, hread, hload]
  exact ⟨trivial, trivial⟩

/-- Witness for C4 at a concrete serialized snapshot. -/
theorem new_resumes_from_snapshot_witness :
    (StatsRecorder.new ⟨false, some "/s"⟩ 1
      ⟨none, .ok (Stats.save_to ⟨5, 6, 7⟩), true, true⟩).stats = ⟨5, 6, 7⟩ ∧
    (StatsRecorder.new ⟨false, some "/s"⟩ 1
      ⟨none, .ok (Stats.save_to ⟨5, 6, 7⟩), true, true⟩).store
      = some ("/s", Stats.save_to ⟨5, 6, 7⟩) :=
  new_resumes_from_snapshot _ 1 _ "/s" _ ⟨5, 6, 7⟩ rfl rfl rfl rfl (by decide)

/-- C5: with non-empty unparseable Primary Store content, construction
resets the counters to zero, returns normally (it is a total function of
the recorded outcomes), and still retains the open handle as the store. -/
theorem new_corrupt_resets_and_keeps_store (opt : StatsOpt) (cores : Nat)
    (env : NewEnv) (p : String) (content : List Char)
    (hno : opt.no_stats_file = false) (hp : opt.stats_file = some p)
    (hopen : env.openResult = .ok content) (hread : env.readOk = true)
    (hne : content ≠ []) (hbad : serdeStatsParse content = none) :
    (StatsRecorder.new opt cores env).stats = Stats.zero ∧
    (StatsRecorder.new opt cores env).store = some (p, content) := by
  have hload : Stats.load_from true content = .error "invalid data" := by
    rw [Stats.load_from, if_pos rfl, if_neg (by simp [hne]), hbad]
  rw [StatsRecorder.new]
  rw [if_neg (by simp [hno])]
  simp only [resolvePath, hp, hopen, hread, hload]
  exact ⟨trivial, trivial⟩

/-- Witness for C5 on garbage bytes. -/
theorem new_corrupt_resets_and_keeps_store_witness :
    (StatsRecorder.new ⟨false, some "/s"⟩ 1
      ⟨none, .ok "garbage".toList, true, true⟩).stats = Stats.zero ∧
    (StatsRecorder.new ⟨false, some "/s"⟩ 1
      ⟨none, .ok "garbage".toList, true, true⟩).store
      = some ("/s", "garbage".toList) :=
  new_corrupt_resets_and_keeps_store _ 1 _ "/s" _ rfl rfl rfl rfl (by decide) (by decide)

/-! The throughput estimator. -/

/-- The saturating cast is the floor for values in [0, 2^32). -/
lemma f64AsU32_floor_bounds (x : ℚ) (hx0 : 0 ≤ x) (hxlt : x < 2 ^ 32) :
    ((f64AsU32 x : Nat) : ℚ) ≤ x ∧ x < ((f64AsU32 x : Nat) : ℚ) + 1 := by
  have hfl0 : 0 ≤ ⌊x⌋ := Int.floor_nonneg.mpr hx0
  have hflt : ⌊x⌋ < (2 ^ 32 : Int) := by
    rw [Int.floor_lt]
    push_cast
    exact hxlt
  have h231 : ((2 ^ 32 - 1 : Nat) : Int) = 2 ^ 32 - 1 := by norm_num
  have hle : ⌊x⌋.toNat ≤ 2 ^ 32 - 1 := by
    rw [Int.toNat_le, h231]
    omega
  have hcast : ((f64AsU32 x : Nat) : ℚ) = ((⌊x⌋ : Int) : ℚ) := by
    rw [f64AsU32, max_eq_left hfl0, min_eq_left hle]
    exact_mod_cast Int.toNat_of_nonneg hfl0
  rw [hcast]
  exact ⟨Int.floor_le x, Int.lt_floor_add_one x⟩

/-- C6 (amended): each ingest updates the uncertainty by exactly
uncertainty × 0.9, and the new estimate is the u32 truncation of the
convex blend estimate × 0.9 + sample × 0.1 (it sits within one unit below
the exact blend); the claim's concrete trace holds: from
(400000, 1.0), ingest(300000) yields exactly (390000, 0.9). -/
theorem nps_record_update (r : NpsRecorder) (s : Nat)
    (h1 : r.nps < 2 ^ 32) (h2 : s < 2 ^ 32) :
    (r.record s).uncertainty = r.uncertainty * (9 / 10 : ℚ) ∧
    ((r.record s).nps : ℚ)
      ≤ (r.nps : ℚ) * (9 / 10 : ℚ) + (s : ℚ) * (1 / 10 : ℚ) ∧
    (r.nps : ℚ) * (9 / 10 : ℚ) + (s : ℚ) * (1 / 10 : ℚ)
      < ((r.record s).nps : ℚ) + 1 ∧
    NpsRecorder.new.record 300000 = ⟨390000, 9 / 10⟩ := by
  have hconst : (1 - 9 / 10 : ℚ) = 1 / 10 := by norm_num
  have hx0 : (0 : ℚ) ≤ (r.nps : ℚ) * (9 / 10 : ℚ) + (s : ℚ) * (1 / 10 : ℚ) := by
    positivity
  have hxlt : (r.nps : ℚ) * (9 / 10 : ℚ) + (s : ℚ) * (1 / 10 : ℚ) < 2 ^ 32 := by
    have hr : (r.nps : ℚ) < 2 ^ 32 := by exact_mod_cast h1
    have hs : (s : ℚ) < 2 ^ 32 := by exact_mod_cast h2
    linarith
  have hbounds := f64AsU32_floor_bounds _ hx0 hxlt
  refine ⟨rfl, ?_, ?_, ?_⟩
  · show ((f64AsU32 ((r.nps : ℚ) * (9 / 10 : ℚ) + (s : ℚ) * (1 - 9 / 10 : ℚ)) : Nat) : ℚ) ≤ _
    rw [hconst]
    exact hbounds.1
  · show _ < ((f64AsU32 ((r.nps : ℚ) * (9 / 10 : ℚ) + (s : ℚ) * (1 - 9 / 10 : ℚ)) : Nat) : ℚ) + 1
    rw [hconst]
    exact hbounds.2
  · norm_num [NpsRecorder.record, NpsRecorder.new, f64AsU32, NpsRecorder.mk.injEq]
    decide

/-- Witness for C6 at the spec's own trace. -/
theorem nps_record_update_witness :
    (NpsRecorder.new.record 300000).uncertainty
      = NpsRecorder.new.uncertainty * (9 / 10 : ℚ) ∧
    ((NpsRecorder.new.record 300000).nps : ℚ)
      ≤ (NpsRecorder.new.nps : ℚ) * (9 / 10 : ℚ) + ((300000 : Nat) : ℚ) * (1 / 10 : ℚ) ∧
    (NpsRecorder.new.nps : ℚ) * (9 / 10 : ℚ) + ((300000 : Nat) : ℚ) * (1 / 10 : ℚ)
      < ((NpsRecorder.new.record 300000).nps : ℚ) + 1 ∧
    NpsRecorder.new.record 300000 = ⟨390000, 9 / 10⟩ :=
  nps_record_update NpsRecorder.new 300000 (by norm_num [NpsRecorder.new]) (by norm_num)

/-- C6 counterexample: at estimate 1 with sample 0 the code's new estimate
is 0 (the `as u32` cast truncates), not the claimed exact value
1 × 0.9 + 0 × 0.1 = 0.9, so the update is not literally the stated
formula. -/
theorem nps_record_formula_cex :
    (((NpsRecorder.mk 1 1).record 0).nps : ℚ)
      ≠ ((NpsRecorder.mk 1 1).nps : ℚ) * (9 / 10 : ℚ)
        + ((0 : Nat) : ℚ) * (1 - 9 / 10 : ℚ) := by
  norm_num [NpsRecorder.record, f64AsU32]

/-- Uncertainty after a run of ingests is the initial uncertainty times
0.9 to the number of samples. -/
lemma runRecords_uncertainty (samples : List Nat) :
    ∀ r : NpsRecorder,
      (runRecords r samples).uncertainty
        = r.uncertainty * (9 / 10 : ℚ) ^ samples.length := by
  induction samples with
  | nil =>
    intro r
    simp [runRecords]
  | cons a t ih =>
    intro r
    have h : runRecords r (a :: t) = runRecords (r.record a) t := rfl
    rw [h, ih (r.record a)]
    simp only [NpsRecorder.record, List.length_cons, pow_succ]
    ring

/-- C7: the uncertainty starts at 1, equals 0.9^n after n ingests (with
any sample values), stays in (0, 1], and never increases as further
samples arrive: it only moves toward 0. -/
theorem nps_uncertainty_monotone (samples extra : List Nat) :
    NpsRecorder.new.uncertainty = 1 ∧
    (runRecords NpsRecorder.new samples).uncertainty
      = (9 / 10 : ℚ) ^ samples.length ∧
    0 < (runRecords NpsRecorder.new samples).uncertainty ∧
    (runRecords NpsRecorder.new samples).uncertainty ≤ 1 ∧
    (runRecords NpsRecorder.new (samples ++ extra)).uncertainty
      ≤ (runRecords NpsRecorder.new samples).uncertainty := by
  have hs := runRecords_uncertainty samples NpsRecorder.new
  have hse := runRecords_uncertainty (samples ++ extra) NpsRecorder.new
  have hnew : NpsRecorder.new.uncertainty = 1 := rfl
  rw [hnew, one_mul] at hs hse
  refine ⟨rfl, hs, ?_, ?_, ?_⟩
  · rw [hs]
    positivity
  · rw [hs]
    exact pow_le_one₀ (by norm_num) (by norm_num)
  · rw [hs, hse, List.length_append]
    exact pow_le_pow_of_le_one (by norm_num) (by norm_num) (by omega)

/-- C8: the rendered status string is the estimate in knps followed by one
marker character for each of the thresholds 0.1, 0.4, 0.7 the uncertainty
exceeds: no markers when uncertainty ≤ 0.1 and three when it
exceeds 0.7. -/
theorem nps_display_markers (r : NpsRecorder) :
    npsDisplay r = toString (r.nps / 1000) ++ " knps/core"
        ++ markerString (uncertaintyMarks r) ∧
    (markerString (uncertaintyMarks r)).data.count '?' = uncertaintyMarks r ∧
    (r.uncertainty ≤ 1 / 10 → uncertaintyMarks r = 0) ∧
    ((7 : ℚ) / 10 < r.uncertainty → uncertaintyMarks r = 3) := by
  have h14 : (1 : ℚ) / 10 < 4 / 10 := by norm_num
  have h47 : (4 : ℚ) / 10 < 7 / 10 := by norm_num
  rcases lt_or_le (1 / 10 : ℚ) r.uncertainty with h1 | h1
  · rcases lt_or_le (4 / 10 : ℚ) r.uncertainty with h4 | h4
    · rcases lt_or_le (7 / 10 : ℚ) r.uncertainty with h7 | h7
      · have hm : uncertaintyMarks r = 3 := by
          simp [uncertaintyMarks, List.filter_cons, decide_eq_true h1,
            decide_eq_true h4, decide_eq_true h7, -one_div]
        refine ⟨?_, by rw [hm]; decide, fun hc => absurd h1 (not_lt.mpr hc),
          fun _ => hm⟩
        rw [npsDisplay, if_pos h1, if_pos h4, if_pos h7, hm]
        apply String.ext
        simp only [String.data_append, List.append_assoc]
        exact congrArg (fun l => (toString (r.nps / 1000)).data ++ l) (by decide)
      · have hm : uncertaintyMarks r = 2 := by
          simp [uncertaintyMarks, List.filter_cons, decide_eq_true h1,
            decide_eq_true h4, decide_eq_false (not_lt.mpr h7), -one_div]
        refine ⟨?_, by rw [hm]; decide, fun hc => absurd h1 (not_lt.mpr hc),
          fun hc => absurd hc (not_lt.mpr h7)⟩
        rw [npsDisplay, if_pos h1, if_pos h4, if_neg (not_lt.mpr h7), hm]
        apply String.ext
        simp only [String.data_append, List.append_assoc]
        exact congrArg (fun l => (toString (r.nps / 1000)).data ++ l) (by decide)
    · have h7 : r.uncertainty ≤ 7 / 10 := le_trans h4 (le_of_lt h47)
      have hm : uncertaintyMarks r = 1 := by
        simp [uncertaintyMarks, List.filter_cons, decide_eq_true h1,
          decide_eq_false (not_lt.mpr h4), decide_eq_false (not_lt.mpr h7), -one_div]
      refine ⟨?_, by rw [hm]; decide, fun hc => absurd h1 (not_lt.mpr hc),
        fun hc => absurd hc (not_lt.mpr h7)⟩
      rw [npsDisplay, if_pos h1, if_neg (not_lt.mpr h4), if_neg (not_lt.mpr h7), hm]
      apply String.ext
      simp only [String.data_append, List.append_assoc]
      exact congrArg (fun l => (toString (r.nps / 1000)).data ++ l) (by decide)
  · have h4 : r.uncertainty ≤ 4 / 10 := le_trans h1 (le_of_lt h14)
    have h7 : r.uncertainty ≤ 7 / 10 := le_trans h4 (le_of_lt h47)
    have hm : uncertaintyMarks r = 0 := by
      simp [uncertaintyMarks, List.filter_cons, decide_eq_false (not_lt.mpr h1),
        decide_eq_false (not_lt.mpr h4), decide_eq_false (not_lt.mpr h7), -one_div]
    refine ⟨?_, by rw [hm]; decide, fun _ => hm, fun hc => absurd hc (not_lt.mpr h7)⟩
    rw [npsDisplay, if_neg (not_lt.mpr h1), if_neg (not_lt.mpr h4),
      if_neg (not_lt.mpr h7), hm]
    apply String.ext
    simp only [String.data_append, List.append_assoc]
    exact congrArg (fun l => (toString (r.nps / 1000)).data ++ l) (by decide)

end Fishnet
